import Mathlib

/-!
# Verification of the SlideDeckML semantic core

A shallow embedding, in Lean 4, of the semantic core of the SlideDeckML
repository: the symbol-table builder and reference validator
(`src/language/src/slide-deck-ml-validator.ts`, class `SlideDeckMlValidator`)
and the render-tree generator (`src/cli/src/generator.ts`, latest snapshot).

Conventions used throughout the embedding:
* JavaScript `Map` objects are modelled as association lists kept in
  insertion order, with `jsMapSet` reproducing `Map.set` (update in place if
  the key exists, append otherwise) and `lookupA` reproducing `Map.get`.
* A JS value of type `string | undefined` is modelled as `Option String`.
* `parseInt(s, 10)` is modelled by `parseIntJS`, which returns `none` for
  `NaN` (no leading integer after optional sign).
* The generator's `CompositeGeneratorNode` templates are modelled by the
  inductive render tree `Out`: one constructor per emitted template, whose
  fields are exactly the values interpolated into that template.  Purely
  static framework boilerplate, floating-point CSS `calc` arithmetic (it is
  a function of the row count, which *is* carried in the tree), and the
  `CodeBox` renderer (touched by no property below) are not reproduced.
* Recursion through component instantiation is not structural (a reference
  jumps to the referenced component's body), so every generator function
  takes an explicit fuel argument and each call strictly decreases it;
  running out of fuel yields the distinguished outcome `GenError.fuel`,
  while the `!`-assertion failures of `generateComponentBoxReference` yield
  `GenError.unresolvedRef`.
-/

namespace SlideDeckML

/-! ## JavaScript map and parsing primitives -/

/-- First-match association-list lookup: the behaviour of `Map.get` on a map
represented as its insertion-ordered entry list (keys unique), and of
`Array.prototype.find` on an arbitrary entry list. -/
def lookupA {α : Type} : List (String × α) → String → Option α
  | [], _ => none
  | (k, v) :: rest, key => if key = k then some v else lookupA rest key

/-- `Map.set`: overwrite the value in place when the key is present (a JS
`Map` holds each key once, so replacing the first match is replacing the
match), append a fresh entry otherwise. -/
def jsMapSet {α : Type} : List (String × α) → String → α → List (String × α)
  | [], k, v => [(k, v)]
  | p :: rest, k, v =>
    if p.1 = k then (k, v) :: rest else p :: jsMapSet rest k v

/-- `new Map(entries)`: fold `Map.set` over the entry list (last value for a
key wins, at the position of the key's first occurrence). -/
def jsMapOfList {α : Type} (l : List (String × α)) : List (String × α) :=
  l.foldl (fun m p => jsMapSet m p.1 p.2) []

/-- Left-biased choice on `Option`. -/
def orElseO {α : Type} : Option α → Option α → Option α
  | some v, _ => some v
  | none, b => b

/-- Value of the *last* entry with the given key in a raw entry list (what a
key-by-key overwrite leaves in a JS `Map` built from that list). -/
def lastVal {α : Type} : List (String × α) → String → Option α
  | [], _ => none
  | p :: rest, key =>
    orElseO (lastVal rest key) (if p.1 = key then some p.2 else none)

theorem lookupA_jsMapSet {α : Type} (m : List (String × α)) (k : String)
    (v : α) (key : String) :
    lookupA (jsMapSet m k v) key = if key = k then some v else lookupA m key := by
  induction m with
  | nil =>
    by_cases hkey : key = k <;> simp [jsMapSet, lookupA, hkey]
  | cons p rest ih =>
    by_cases hp : p.1 = k
    · by_cases hkey : key = k
      · simp [jsMapSet, lookupA, hp, hkey]
      · have hkp : ¬ key = p.1 := fun h => hkey (h.trans hp)
        simp [jsMapSet, lookupA, hp, hkey, hkp]
    · by_cases hkp : key = p.1
      · have hkey : ¬ key = k := fun h => hp (hkp ▸ h)
        simp [jsMapSet, lookupA, hp, hkp, hkey]
      · simp [jsMapSet, lookupA, hp, hkp, ih]

theorem lookupA_foldl_jsMapSet {α : Type} (l : List (String × α))
    (m : List (String × α)) (key : String) :
    lookupA (l.foldl (fun acc p => jsMapSet acc p.1 p.2) m) key
      = orElseO (lastVal l key) (lookupA m key) := by
  induction l generalizing m with
  | nil => simp [lastVal, orElseO]
  | cons p rest ih =>
    simp only [List.foldl_cons, ih, lastVal]
    rw [lookupA_jsMapSet]
    cases hrest : lastVal rest key with
    | some v => simp [orElseO]
    | none =>
      by_cases hk : key = p.1
      · simp [orElseO, hk]
      · have : ¬ p.1 = key := fun h => hk h.symm
        simp [orElseO, hk, this]

theorem lookupA_jsMapOfList {α : Type} (l : List (String × α)) (key : String) :
    lookupA (jsMapOfList l) key = lastVal l key := by
  unfold jsMapOfList
  rw [lookupA_foldl_jsMapSet]
  cases lastVal l key <;> simp [lookupA, orElseO]

/-- ASCII whitespace (the JS `trim`/`parseInt` whitespace set restricted to
the characters that occur in this language's literals). -/
def isWS (c : Char) : Bool :=
  c = ' ' || c = '\t' || c = '\n' || c = '\r'

/-- Strip leading and trailing whitespace from a character list. -/
def trimChars (cs : List Char) : List Char :=
  ((cs.dropWhile isWS).reverse.dropWhile isWS).reverse

/-- Leading decimal digits of a character list. -/
def leadingDigits : List Char → List Char
  | [] => []
  | c :: rest => if c.isDigit then c :: leadingDigits rest else []

/-- Numeric value of a digit list. -/
def digitsToNat (ds : List Char) : Nat :=
  ds.foldl (fun acc c => acc * 10 + (c.toNat - '0'.toNat)) 0

/-- `parseInt(s, 10)`: trim surrounding whitespace, read an optional sign and
then the longest prefix of decimal digits; `none` models `NaN` (no digits). -/
def parseIntJS (s : String) : Option Int :=
  let cs := trimChars s.toList
  let signed : Int × List Char :=
    match cs with
    | '-' :: r => (-1, r)
    | '+' :: r => (1, r)
    | r => (1, r)
  let ds := leadingDigits signed.2
  if ds.isEmpty then none else some (signed.1 * (digitsToNat ds : Int))

/-! ## Data model

Mirrors the Langium AST node types consumed by the validator and the
generator.  `ComponentBoxReference` is a single node type that occurs in both
the slide-level `Box` union and the component-level `ComponentBox` union; its
`reference.ref` cross-reference is resolved by name, so it is modelled by the
written target name, with resolution meaning "some component of that name is
declared in the model".  `CodeBox` is used by no property below and is not
modelled. -/

/-- An attribute node: `key` plus optional `value` (a JS
`string | undefined`).  The generated AST distinguishes `$type` tags such as
`ContentBoxAttribute` per owning box kind; the tag carries no data beyond the
owning position and is left implicit here. -/
structure Attr where
  key : String
  value : Option String
deriving DecidableEq

/-- A quiz option: `id` plus its `{...}` text literal. -/
structure QuizOption where
  id : String
  content : String
deriving DecidableEq

mutual

/-- Slide-level box union (`Box` in the grammar). -/
inductive Box : Type where
  | contentBox (attributes : List Attr) (boxes : List Box)
  | textBox (attributes : List Attr) (content : String)
  | imageBox (attributes : List Attr) (src alt : String)
  | videoBox (attributes : List Attr) (src alt : String)
  | reference (target : String) (attributes : List Attr) (slots : List SlotFill)
  | quizBox (attributes : List Attr) (id qtype question : String)
      (correctAnswer : Option String) (options : List QuizOption)
      (revealResultsOnDemand : Bool)
  | liveQuizBox (attributes : List Attr) (id question : String)
      (correctAnswer : Option String) (sessionId : String)
      (options : List QuizOption) (revealResultsOnDemand : Bool)
  | listBox (attributes : List Attr) (items : List String)

/-- A call-site slot fill (`ComponentSlotReference`): slot name plus the box
tree supplied for it. -/
inductive SlotFill : Type where
  | mk (name : String) (content : Box)

/-- Component-level box union (`ComponentBox` in the grammar). -/
inductive ComponentBox : Type where
  | componentSlot (name : String) (content : Option Box)
  | componentContentBox (attributes : List Attr) (boxes : List ComponentBox)
  | reference (target : String) (attributes : List Attr) (slots : List SlotFill)
  | textBox (attributes : List Attr) (content : String)
  | imageBox (attributes : List Attr) (src alt : String)
  | videoBox (attributes : List Attr) (src alt : String)
  | quizBox (attributes : List Attr) (id qtype question : String)
      (correctAnswer : Option String) (options : List QuizOption)
      (revealResultsOnDemand : Bool)
  | liveQuizBox (attributes : List Attr) (id question : String)
      (correctAnswer : Option String) (sessionId : String)
      (options : List QuizOption) (revealResultsOnDemand : Bool)
  | listBox (attributes : List Attr) (items : List String)

end

def SlotFill.name : SlotFill → String
  | .mk n _ => n

def SlotFill.content : SlotFill → Box
  | .mk _ c => c

/-- A named component declaration owning one root `ComponentBox`. -/
structure Component where
  name : String
  content : ComponentBox

/-- Header or footer: a content box plus optional style literals. -/
structure HeaderFooter where
  content : Box
  background : Option String := none
  color : Option String := none
  fontSize : Option String := none

structure Theme where
  fontName : Option String := none

structure Slide where
  id : String
  attributes : List Attr := []
  content : Box
  header : Option HeaderFooter := none
  footer : Option HeaderFooter := none

structure Model where
  name : String
  components : List Component
  slides : List Slide
  theme : Option Theme := none
  header : Option HeaderFooter := none
  footer : Option HeaderFooter := none

/-- `getAttributeValue(attributes, key)` from `generator.ts`: value of the
first attribute with the given key (`undefined` when absent or when the
attribute carries no value). -/
def getAttributeValue (attributes : List Attr) (key : String) : Option String :=
  match attributes.find? (fun a => a.key = key) with
  | some a => a.value
  | none => none

/-- `hasAttribute(attributes, key)` from `generator.ts`. -/
def hasAttribute (attributes : List Attr) (key : String) : Bool :=
  attributes.any (fun a => a.key = key)

/-! ## Attribute merge engine (`generateComponentBoxReference`)

The generator builds `new Map(declarationBox.attributes.map(a => [a.key,
a.value]))` and then `set`s every call-site attribute over it, finally
converting the map back to an attribute array (re-tagging each entry's
`$type` via `collectAttributeType`, which changes no key or value). -/

/-- The merged attribute array of `generateComponentBoxReference`: declared
attributes loaded into a JS map, call-site attributes overriding key-by-key. -/
def mergeAttributes (declared callSite : List Attr) : List Attr :=
  let m := jsMapOfList (declared.map (fun a => (a.key, a.value)))
  let m := callSite.foldl (fun acc a => jsMapSet acc a.key a.value) m
  m.map (fun p => { key := p.1, value := p.2 })

/-- The `switch (declaration.content.$type)` of
`generateComponentBoxReference`: only a `ComponentContentBox`, `TextBox`,
`ListBox` or nested `ComponentBoxReference` root gets its attributes replaced
by the merged array; every other root kind is passed on unchanged. -/
def overrideDeclarationAttributes (content : ComponentBox)
    (callSite : List Attr) : ComponentBox :=
  match content with
  | .componentContentBox attrs boxes =>
      .componentContentBox (mergeAttributes attrs callSite) boxes
  | .textBox attrs text => .textBox (mergeAttributes attrs callSite) text
  | .listBox attrs items => .listBox (mergeAttributes attrs callSite) items
  | .reference target attrs slots =>
      .reference target (mergeAttributes attrs callSite) slots
  | other => other

/-- Attribute list of a component-level box (`declarationBox.attributes`). -/
def ComponentBox.attributes : ComponentBox → List Attr
  | .componentSlot _ _ => []
  | .componentContentBox attrs _ => attrs
  | .reference _ attrs _ => attrs
  | .textBox attrs _ => attrs
  | .imageBox attrs _ _ => attrs
  | .videoBox attrs _ _ => attrs
  | .quizBox attrs _ _ _ _ _ _ => attrs
  | .liveQuizBox attrs _ _ _ _ _ _ => attrs
  | .listBox attrs _ => attrs

/-! ## Symbol table builder and reference validator
(`slide-deck-ml-validator.ts`, class `SlideDeckMlValidator`) -/

inductive Severity : Type where
  | error
  | warning
deriving DecidableEq

/-- The diagnostic messages emitted by the checks modelled here, one
constructor per template string of the validator. -/
inductive Msg : Type where
  | multipleComponentDecl (name : String)
  | unknownComponent
  | selfReference (name : String)
  | slotUsedTwice (slot : String)
  | unknownSlot (slot component : String)
  | slotNeverUsed (slot component : String)
  | columnInvalid (value : Option String)
  | columnExceedsTwelve (value : Option String)
  | heightNotPercentage
  | heightOutOfRange
  | alignmentMayBeUnrecognized (value : Option String)
  | fragmentMayBeUnrecognized (value : Option String)
deriving DecidableEq

structure Diag where
  severity : Severity
  msg : Msg
deriving DecidableEq

/-- The data of a collected `ComponentBoxReference` node that the checks
read: its written target name and its filled slot names, in source order. -/
structure RefData where
  target : String
  slotNames : List String
deriving DecidableEq

/-- `ComponentInformation`: the slot-name set and reference set gathered per
component.  A JS `Set` iterates in insertion order, so both are insertion-
ordered lists; `slots` is deduplicated on add, and `references` collects
distinct AST nodes (each node is visited once, so appending models the set). -/
structure CompInfo where
  slots : List String
  references : List RefData
deriving DecidableEq

/-- `Set.add` on an insertion-ordered string set. -/
def setAdd (s : List String) (x : String) : List String :=
  if x ∈ s then s else s ++ [x]

mutual

/-- `collectComponentBoxReferences`: all `ComponentBoxReference` nodes of a
slide-level box tree, descending only through `ContentBox` children. -/
def collectComponentBoxReferences : Box → List RefData
  | .reference target _ slots => [⟨target, slots.map SlotFill.name⟩]
  | .contentBox _ boxes => collectRefsList boxes
  | _ => []

def collectRefsList : List Box → List RefData
  | [] => []
  | b :: rest => collectComponentBoxReferences b ++ collectRefsList rest

end

mutual

/-- `collectComponentInformations`: slots contribute their name plus any
references in their default content; reference boxes contribute themselves;
content containers contribute the union over children. -/
def collectComponentInformations : ComponentBox → CompInfo
  | .componentSlot name content =>
      { slots := [name]
        references :=
          match content with
          | some box => collectComponentBoxReferences box
          | none => [] }
  | .reference target _ slots =>
      { slots := [], references := [⟨target, slots.map SlotFill.name⟩] }
  | .componentContentBox _ boxes => collectInfoList ⟨[], []⟩ boxes
  | _ => ⟨[], []⟩

def collectInfoList : CompInfo → List ComponentBox → CompInfo
  | acc, [] => acc
  | acc, b :: rest =>
      let child := collectComponentInformations b
      collectInfoList
        ⟨child.slots.foldl setAdd acc.slots, acc.references ++ child.references⟩
        rest

end

/-- First phase of `checkComponentReferences`: build the per-name
`ComponentInformation` map (last declaration wins) and warn on every
redeclaration. -/
def buildInfoTable (comps : List Component) :
    List (String × CompInfo) × List Diag :=
  comps.foldl
    (fun st c =>
      let ds :=
        if (lookupA st.1 c.name).isSome then
          st.2 ++ [⟨.warning, .multipleComponentDecl c.name⟩]
        else st.2
      (jsMapSet st.1 c.name (collectComponentInformations c.content), ds))
    ([], [])

/-- Second phase: per table entry, an unresolved reference (`reference.ref`
resolves by name, so being unresolved coincides with the name being absent
from the table) is an unknown-component error, and a resolved reference back
to the owning entry's name is a self-reference error. -/
def intraComponentDiags (table : List (String × CompInfo)) : List Diag :=
  table.foldl
    (fun ds entry =>
      ds ++
        entry.2.references.foldl
          (fun ds' r =>
            ds' ++
              (if (lookupA table r.target).isNone then
                [⟨.error, .unknownComponent⟩]
              else if entry.1 = r.target then
                [⟨.error, .selfReference entry.1⟩]
              else []))
          [])
    []

/-- One iteration of the `for (const slot of reference.slots)` loop: a name
already in `usedSlots` is a duplicate-use error (and `continue` skips the
unknown-slot test); otherwise the name joins `usedSlots` and, when not
declared, is an unknown-slot error. -/
def slotStep (componentName : String) (declaredSlots : List String)
    (st : List String × List Diag) (slotName : String) :
    List String × List Diag :=
  if slotName ∈ st.1 then
    (st.1, st.2 ++ [⟨.error, .slotUsedTwice slotName⟩])
  else if slotName ∈ declaredSlots then
    (st.1 ++ [slotName], st.2)
  else
    (st.1 ++ [slotName],
      st.2 ++ [⟨.error, .unknownSlot slotName componentName⟩])

/-- The slot loops of the slide-level check: thread the `usedSlots` set over
the filled names, then warn for every declared slot never used. -/
def checkSlotsUsage (componentName : String) (declaredSlots : List String)
    (filledNames : List String) : List Diag :=
  let step := filledNames.foldl (slotStep componentName declaredSlots) ([], [])
  step.2 ++
    declaredSlots.foldl
      (fun ds slot =>
        if slot ∈ step.1 then ds
        else ds ++ [⟨.warning, .slotNeverUsed slot componentName⟩])
      []

/-- Third phase: every reference reachable from the slides either fails to
resolve (unknown-component error, `continue`) or has its slot usage checked
against the referenced component's slot set. -/
def slideLevelDiags (table : List (String × CompInfo)) (slides : List Slide) :
    List Diag :=
  let refs := (slides.map (fun s => collectComponentBoxReferences s.content)).flatten
  refs.foldl
    (fun ds r =>
      match lookupA table r.target with
      | none => ds ++ [⟨.error, .unknownComponent⟩]
      | some info => ds ++ checkSlotsUsage r.target info.slots r.slotNames)
    []

/-- `checkComponentReferences(model)`: the three phases in order, every
diagnostic collected. -/
def checkComponentReferences (m : Model) : List Diag :=
  let built := buildInfoTable m.components
  built.2 ++ intraComponentDiags built.1 ++ slideLevelDiags built.1 m.slides

/-- `parseInt` applied to a possibly-undefined attribute value
(`parseInt(undefined, 10)` is `NaN`). -/
def parseIntOpt (v : Option String) : Option Int :=
  match v with
  | some s => parseIntJS s
  | none => none

/-- The `/^(\d+)%?$/` match of the height check: the captured digit group
when the whole value is digits followed by an optional `%`. -/
def matchHeightPercent (s : String) : Option (List Char) :=
  let cs := s.toList
  let ds := leadingDigits cs
  let rest := cs.drop ds.length
  if ds.isEmpty then none
  else if rest = [] ∨ rest = ['%'] then some ds
  else none

def validAlignments : List String :=
  ["top", "center", "bottom", "left", "right", "top-left", "top-center",
   "top-right", "center-left", "center-center", "center-right",
   "bottom-left", "bottom-center", "bottom-right"]

def validFragments : List String :=
  ["fade-in", "fade-up", "fade-down", "fade-left", "fade-right",
   "fade-in-then-out", "fade-in-then-semi-out", "grow", "shrink", "strike",
   "highlight-red", "highlight-green", "highlight-blue", "current-visible",
   "semi-fade-out"]

/-- `checkContentBoxAttributeValues(contentBox)`: per attribute, the
`column`, `height`, `alignment` and `fragment` value checks. -/
def checkContentBoxAttributeValues (attributes : List Attr) : List Diag :=
  attributes.foldl
    (fun ds attr =>
      ds ++
        (if attr.key = "column" then
          match parseIntOpt attr.value with
          | none => [⟨.error, .columnInvalid attr.value⟩]
          | some c =>
            if c < 1 then [⟨.error, .columnInvalid attr.value⟩]
            else if c > 12 then [⟨.error, .columnExceedsTwelve attr.value⟩]
            else []
        else if attr.key = "height" then
          match attr.value with
          | some s =>
            match matchHeightPercent s with
            | none => [⟨.error, .heightNotPercentage⟩]
            | some ds' =>
              if digitsToNat ds' > 100 then [⟨.error, .heightOutOfRange⟩]
              else []
          | none => [⟨.error, .heightNotPercentage⟩]
        else if attr.key = "alignment" then
          match attr.value with
          | some v =>
            if v ∈ validAlignments then []
            else [⟨.warning, .alignmentMayBeUnrecognized (some v)⟩]
          | none => [⟨.warning, .alignmentMayBeUnrecognized none⟩]
        else if attr.key = "fragment" then
          match attr.value with
          | some v =>
            if v ∈ validFragments then []
            else [⟨.warning, .fragmentMayBeUnrecognized (some v)⟩]
          | none => [⟨.warning, .fragmentMayBeUnrecognized none⟩]
        else []))
    []

/-! ## Layout engine (`generateContentBoxAttributes`, `mapAlignment`) -/

/-- JS truthiness of a `string | undefined` value: `none` (undefined) and the
empty string are falsy; a truthy value is returned as `some`. -/
def jsTruthyVal (v : Option String) : Option String :=
  match v with
  | some s => if s = "" then none else some s
  | none => none

/-- Split a character list on a separator (`String.prototype.split` with a
single-character separator: `""` splits to `[""]`, adjacent separators
produce empty pieces). -/
def splitOnChar (sep : Char) : List Char → List (List Char)
  | [] => [[]]
  | c :: rest =>
    match splitOnChar sep rest with
    | [] => [[]]
    | w :: ws => if c = sep then [] :: w :: ws else (c :: w) :: ws

/-- `value.split(' ')`. -/
def jsSplitSpace (s : String) : List String :=
  (splitOnChar ' ' s.toList).map String.mk

/-- The compass-word table of `mapAlignment`. -/
def alignWord (w : String) : Option String :=
  if w = "top" then some "start"
  else if w = "center" then some "center"
  else if w = "bottom" then some "end"
  else if w = "left" then some "start"
  else if w = "right" then some "end"
  else none

/-- `mapAlignment(value?)`: a falsy value is `center center`; otherwise the
value is split on a space, the first word placed first and the second word
second, each mapped through the compass table with `center` as the `??`
fallback. -/
def mapAlignment (value : Option String) : String :=
  match value with
  | none => "center center"
  | some v =>
    if v = "" then "center center"
    else
      let parts := jsSplitSpace v
      let vPrim := ((parts.get? 0).bind alignWord).getD "center"
      let hPrim := ((parts.get? 1).bind alignWord).getD "center"
      vPrim ++ " " ++ hPrim

/-- The `column` count of `generateContentBoxAttributes`: first `column`
attribute value parsed when truthy, 2 otherwise; `none` models `NaN`. -/
def contentColumnCount (attributes : List Attr) : Option Int :=
  match getAttributeValue attributes "column" with
  | some s => if s = "" then some 2 else parseIntJS s
  | none => some 2

/-- `Math.ceil(boxCount / column)`.  For a nonzero integer `column` the JS
quotient is the exact rational and `Math.ceil` its ceiling; a zero column
(`Infinity`/`NaN` quotient) or a `NaN` column yields no integer row count,
modelled as `none`. -/
def gridRows (columns : Option Int) (boxCount : Nat) : Option Int :=
  match columns with
  | none => none
  | some c => if c = 0 then none else some ⌈(boxCount : ℚ) / (c : ℚ)⌉

/-- The structured content of the style string built by
`generateContentBoxAttributes`: one `height:`/`width:` item per matching
attribute in order, the grid column and row counts, the `height: 100%;`/
`width: 100%;` fallbacks, and the `place-items`/`place-content` placement
(the `calc` percentage inside `grid-template-rows` is a function of `rows`
and is not duplicated here). -/
structure ContentStyle where
  heights : List (Option String)
  widths : List (Option String)
  columns : Option Int
  rows : Option Int
  fillHeight : Bool
  fillWidth : Bool
  placement : String
deriving DecidableEq

/-- `generateContentBoxAttributes(attributes, boxCount)`. -/
def generateContentBoxAttributes (attributes : List Attr) (boxCount : Nat) :
    ContentStyle :=
  let columns := contentColumnCount attributes
  let heights :=
    attributes.foldl (fun l a => if a.key = "height" then l ++ [a.value] else l) []
  let widths :=
    attributes.foldl (fun l a => if a.key = "width" then l ++ [a.value] else l) []
  let alignmentValue :=
    attributes.foldl
      (fun acc a => if a.key = "alignment" then a.value else acc) none
  { heights := heights
    widths := widths
    columns := columns
    rows := gridRows columns boxCount
    fillHeight := heights.isEmpty
    fillWidth := widths.isEmpty
    placement := mapAlignment alignmentValue }

/-! ## Terminal renderers -/

/-- `textContent(text)` / the `slice(1, -1).trim()` idiom: strip the literal
delimiters and trim. -/
def textContent (text : String) : String :=
  String.mk (trimChars ((text.toList.drop 1).dropLast))

/-- `slice(1, -1)` without trimming (header/footer style literals,
theme font). -/
def sliceEnds (s : String) : String :=
  String.mk ((s.toList.drop 1).dropLast)

/-- The `text-size` keyword table of `generateTextBoxStyles`. -/
def mapTextSize (v : String) : String :=
  if v = "xs" then "0.8em"
  else if v = "s" then "0.9em"
  else if v = "m" then "1em"
  else if v = "l" then "1.2em"
  else if v = "xl" then "1.5em"
  else v

/-- `generateTextBoxStyles`. -/
def generateTextBoxStyles (bold italic underline strikethrough highlight : Bool)
    (color font textSize : Option String) : String :=
  (if bold then "font-weight: bold; " else "")
    ++ (if italic then "font-style: italic; " else "")
    ++ (if underline then "text-decoration: underline; " else "")
    ++ (if strikethrough then "text-decoration: line-through; " else "")
    ++ (if highlight then "background-color: yellow; " else "")
    ++ (match jsTruthyVal color with
        | some c => "color: " ++ c ++ "; "
        | none => "")
    ++ (match jsTruthyVal font with
        | some f => "font-family: " ++ f ++ "; "
        | none => "")
    ++ (match jsTruthyVal textSize with
        | some t => "font-size: " ++ mapTextSize t ++ "; "
        | none => "")

structure QuizOut where
  quizId : String
  qtype : String
  dataCorrectAnswer : String
  revealOnDemand : Bool
  question : String
  options : List (String × String)
deriving DecidableEq

/-- The interpolations of the `generateLiveQuizBox` template: the container
and QR ids, the `data-correct-answer` tag, one `vote-count` element per
option keyed by the option label with initial text `0`, and the identifiers
the embedded join script carries (quiz id, session id, question, options). -/
structure LiveQuizOut where
  containerId : String
  dataCorrectAnswer : String
  question : String
  voteCounters : List (String × String)
  qrPlaceholderId : String
  scriptQuizId : String
  scriptSessionId : String
  scriptQuestion : String
  scriptOptions : List String
  revealOnDemand : Bool
deriving DecidableEq

/-- The render tree: one constructor per `expandToNode` template shape, with
fields for the interpolated data. -/
inductive Out : Type where
  | empty
  | fragmentWrap (fragmentStyle : String) (inner : Out)
  | contentDiv (fragment : Option String) (style : ContentStyle)
      (children : List Out)
  | textP (style : String) (text : String)
  | image (src alt : String) (scale : Option String)
  | video (src title : String) (maxWidth : String)
  | quiz (q : QuizOut)
  | liveQuiz (q : LiveQuizOut)
  | list (tag : String) (spacingAttr : Option String) (items : List String)

/-- `generateTextBox`. -/
def generateTextBox (attributes : List Attr) (content : String) : Out :=
  .textP
    (generateTextBoxStyles
      (hasAttribute attributes "bold")
      (hasAttribute attributes "italic")
      (hasAttribute attributes "underline")
      (hasAttribute attributes "strikethrough")
      (hasAttribute attributes "highlight")
      (getAttributeValue attributes "color")
      (getAttributeValue attributes "font")
      (getAttributeValue attributes "text-size"))
    (textContent content)

/-- `generateImageBox`: a truthy `scale` attribute switches the sizing style
from the full-size default to `width: <scale>`. -/
def generateImageBox (attributes : List Attr) (src alt : String) : Out :=
  .image (textContent src) (textContent alt)
    (jsTruthyVal (getAttributeValue attributes "scale"))

/-- Leading run of characters of `[^?&]+`. -/
def takeUntilQueryAmp (cs : List Char) : List Char :=
  cs.takeWhile (fun c => c ≠ '?' ∧ c ≠ '&')

/-- One attempt of `/(?:youtu\.be\/|v=)([^?&]+)/` at a fixed position. -/
def ytMatchAt (cs : List Char) : Option (List Char) :=
  if cs.take 9 = "youtu.be/".toList then
    let cap := takeUntilQueryAmp (cs.drop 9)
    if cap.isEmpty then none else some cap
  else if cs.take 2 = "v=".toList then
    let cap := takeUntilQueryAmp (cs.drop 2)
    if cap.isEmpty then none else some cap
  else none

/-- Left-to-right scan of `url.match(/(?:youtu\.be\/|v=)([^?&]+)/)`, returning
the captured group. -/
def ytSearch : List Char → Option (List Char)
  | [] => none
  | c :: rest =>
    match ytMatchAt (c :: rest) with
    | some cap => some cap
    | none => ytSearch rest

/-- `toYouTubeEmbed(url)`. -/
def toYouTubeEmbed (url : String) : String :=
  match ytSearch url.toList with
  | some cap => "https://www.youtube.com/embed/" ++ String.mk cap
  | none => url

/-- `generateVideoBox`. -/
def generateVideoBox (attributes : List Attr) (src alt : String) : Out :=
  let embed := toYouTubeEmbed (textContent src)
  let maxWidth :=
    match jsTruthyVal (getAttributeValue attributes "scale") with
    | some v =>
      if v.toList.getLast? = some '%' then v else v ++ "%"
    | none => "100%"
  .video embed (textContent alt) maxWidth

/-- `generateQuizBox`. -/
def generateQuizBox (id qtype question : String) (correctAnswer : Option String)
    (options : List QuizOption) (reveal : Bool) : QuizOut :=
  { quizId := id
    qtype := qtype
    dataCorrectAnswer :=
      match correctAnswer with
      | some c => textContent c
      | none => ""
    revealOnDemand := reveal
    question := textContent question
    options := options.map (fun o => (o.id, textContent o.content)) }

/-- `generateLiveQuizBox`.  The session identifier interpolated into the join
script is the constant `"SESSION123"` declared at the top of the function;
the box's own `sessionId` field is never read. -/
def generateLiveQuizBox (id question : String) (correctAnswer : Option String)
    (_sessionId : String) (options : List QuizOption) (reveal : Bool) :
    LiveQuizOut :=
  let labels := options.map (fun o => textContent o.content)
  { containerId := "quiz-" ++ id
    dataCorrectAnswer :=
      match correctAnswer with
      | some c => textContent c
      | none => ""
    question := textContent question
    voteCounters := labels.map (fun l => (l, "0"))
    qrPlaceholderId := "qr-" ++ id
    scriptQuizId := id
    scriptSessionId := "SESSION123"
    scriptQuestion := textContent question
    scriptOptions := labels
    revealOnDemand := reveal }

/-- `generateListBox`.  `spacingAttr` carries the raw `spaceBetweenItems`
value (the source converts it with `Number(… ?? 0)` into a pixel gap; the
conversion is a presentation detail of no property below). -/
def generateListBox (attributes : List Attr) (items : List String) : Out :=
  let listType :=
    match getAttributeValue attributes "type" with
    | some s => s
    | none => "unordered"
  .list (if listType = "ordered" then "ol" else "ul")
    (getAttributeValue attributes "spaceBetweenItems")
    (items.map textContent)

/-- The fragment style of a box (`getAttributeValue(attributes, 'fragment')`
with JS truthiness). -/
def fragmentOf (attributes : List Attr) : Option String :=
  jsTruthyVal (getAttributeValue attributes "fragment")

/-- `generateTerminalBoxWithFragment`: wrap the rendered terminal in a
fragment `div` when the box carries a truthy `fragment` attribute. -/
def generateTerminalBoxWithFragment (attributes : List Attr) (content : Out) :
    Out :=
  match fragmentOf attributes with
  | some style => .fragmentWrap style content
  | none => content

/-! ## The recursive render-tree generator -/

inductive GenError : Type where
  /-- The `reference.reference.ref!`/`componentsSymbolTable.get(…)!`
  dereference failed: the target name resolves to no component. -/
  | unresolvedRef (target : String)
  /-- Fuel exhausted (the source has no such bound and would recurse
  without limit). -/
  | fuel
deriving DecidableEq

/-- `componentsSymbolTable` as rebuilt by `generateModel`:
`new Map(model.components.map(c => [c.name, c]))`, so the last declaration of
a name wins. -/
def buildSymbolTable (m : Model) : List (String × Component) :=
  m.components.foldl (fun t c => jsMapSet t c.name c) []

mutual

/-- `generateBox`. -/
def genBox : Nat → List (String × Component) → Box → Except GenError Out
  | 0, _, _ => .error .fuel
  | Nat.succ n, tbl, box =>
    match box with
    | .contentBox attrs boxes => do
        let outs ← genBoxList n tbl boxes
        .ok (.contentDiv (fragmentOf attrs)
          (generateContentBoxAttributes attrs boxes.length) outs)
    | .textBox attrs content =>
        .ok (generateTerminalBoxWithFragment attrs (generateTextBox attrs content))
    | .imageBox attrs src alt =>
        .ok (generateTerminalBoxWithFragment attrs (generateImageBox attrs src alt))
    | .videoBox attrs src alt =>
        .ok (generateTerminalBoxWithFragment attrs (generateVideoBox attrs src alt))
    | .reference target attrs slots => do
        let out ← genComponentBoxReference n tbl target attrs slots
        .ok (generateTerminalBoxWithFragment attrs out)
    | .quizBox attrs id qtype question ca options reveal =>
        .ok (generateTerminalBoxWithFragment attrs
          (.quiz (generateQuizBox id qtype question ca options reveal)))
    | .liveQuizBox attrs id question ca sessionId options reveal =>
        .ok (generateTerminalBoxWithFragment attrs
          (.liveQuiz (generateLiveQuizBox id question ca sessionId options reveal)))
    | .listBox attrs items =>
        .ok (generateTerminalBoxWithFragment attrs (generateListBox attrs items))

def genBoxList : Nat → List (String × Component) → List Box →
    Except GenError (List Out)
  | 0, _, _ => .error .fuel
  | Nat.succ n, tbl, boxes =>
    match boxes with
    | [] => .ok []
    | b :: rest => do
        let o ← genBox n tbl b
        let os ← genBoxList n tbl rest
        .ok (o :: os)

/-- `generateComponentBoxReference`: resolve the declaration through the
symbol table (the `!` dereferences — failure is the crash modelled by
`GenError.unresolvedRef`), render the call-site slot fills into a record,
merge the call-site attributes over the declared root's, and render the
resulting root. -/
def genComponentBoxReference : Nat → List (String × Component) → String →
    List Attr → List SlotFill → Except GenError Out
  | 0, _, _, _, _ => .error .fuel
  | Nat.succ n, tbl, target, attrs, slotFills =>
    match lookupA tbl target with
    | none => .error (.unresolvedRef target)
    | some decl => do
        let slots ← genSlotFills n tbl [] slotFills
        genComponentBox n tbl slots (overrideDeclarationAttributes decl.content attrs)

/-- The `slots[slot.name] = generateBox(slot.content)` loop: a JS record
assignment, so a repeated name overwrites the earlier entry. -/
def genSlotFills : Nat → List (String × Component) → List (String × Out) →
    List SlotFill → Except GenError (List (String × Out))
  | 0, _, _, _ => .error .fuel
  | Nat.succ n, tbl, acc, fills =>
    match fills with
    | [] => .ok acc
    | f :: rest => do
        let o ← genBox n tbl f.content
        genSlotFills n tbl (jsMapSet acc f.name o) rest

/-- `generateComponentBox`: dispatch on the component-box kind; terminal
kinds use the shared renderers (without fragment wrapping), a nested
reference recurses, a slot substitutes, and a `ComponentContentBox` recurses
over its children with the same slot record. -/
def genComponentBox : Nat → List (String × Component) → List (String × Out) →
    ComponentBox → Except GenError Out
  | 0, _, _, _ => .error .fuel
  | Nat.succ n, tbl, slots, cbox =>
    match cbox with
    | .textBox attrs content => .ok (generateTextBox attrs content)
    | .imageBox attrs src alt => .ok (generateImageBox attrs src alt)
    | .videoBox attrs src alt => .ok (generateVideoBox attrs src alt)
    | .reference target attrs slotFills =>
        genComponentBoxReference n tbl target attrs slotFills
    | .quizBox _ id qtype question ca options reveal =>
        .ok (.quiz (generateQuizBox id qtype question ca options reveal))
    | .listBox attrs items => .ok (generateListBox attrs items)
    | .liveQuizBox _ id question ca sessionId options reveal =>
        .ok (.liveQuiz (generateLiveQuizBox id question ca sessionId options reveal))
    | .componentSlot name content => genComponentSlot n tbl name content slots
    | .componentContentBox attrs boxes => do
        let outs ← genComponentBoxList n tbl slots boxes
        .ok (.contentDiv none
          (generateContentBoxAttributes attrs boxes.length) outs)

def genComponentBoxList : Nat → List (String × Component) →
    List (String × Out) → List ComponentBox → Except GenError (List Out)
  | 0, _, _, _ => .error .fuel
  | Nat.succ n, tbl, slots, boxes =>
    match boxes with
    | [] => .ok []
    | b :: rest => do
        let o ← genComponentBox n tbl slots b
        let os ← genComponentBoxList n tbl slots rest
        .ok (o :: os)

/-- `generateComponentSlot`: the call-site fill when one was recorded for
the slot's name, otherwise the slot's own default content, otherwise the
empty node. -/
def genComponentSlot : Nat → List (String × Component) → String →
    Option Box → List (String × Out) → Except GenError Out
  | 0, _, _, _, _ => .error .fuel
  | Nat.succ n, tbl, name, content, slots =>
    match lookupA slots name with
    | some out => .ok out
    | none =>
      match content with
      | some box => genBox n tbl box
      | none => .ok .empty

end

/-- `generateHeaderFooterStyles`. -/
def generateHeaderFooterStyles (hf : HeaderFooter) : List String :=
  (match jsTruthyVal hf.background with
   | some b => ["background: " ++ sliceEnds b]
   | none => [])
  ++ (match jsTruthyVal hf.color with
      | some c => ["color: " ++ sliceEnds c]
      | none => [])
  ++ (match jsTruthyVal hf.fontSize with
      | some f => ["font-size: " ++ sliceEnds f]
      | none => [])

/-- The data of one generated `<section>` (`generateSlide`): slide id, the
`annotable` marker class, the serialized header/footer render trees and style
lists carried in data attributes, and the content tree. -/
structure SlideOut where
  id : String
  annotable : Bool
  headerOut : Option Out
  footerOut : Option Out
  headerStyles : Option (List String)
  footerStyles : Option (List String)
  content : Out

/-- The `slide.header || model.header` fallback (and its `footer` twin). -/
def chooseHF (slideLevel modelLevel : Option HeaderFooter) :
    Option HeaderFooter :=
  match slideLevel with
  | some hf => some hf
  | none => modelLevel

/-- `generateHeaderFooterHtml` lifted to an optional header/footer: render
the content box when present. -/
def genHF (fuel : Nat) (tbl : List (String × Component)) :
    Option HeaderFooter → Except GenError (Option Out)
  | some hf => (genBox fuel tbl hf.content).map some
  | none => .ok none

/-- `generateSlide(slide, model)`: slide-level header/footer fall back to the
model-level ones; each is rendered per slide via `generateBox`. -/
def genSlide (fuel : Nat) (tbl : List (String × Component))
    (modelHeader modelFooter : Option HeaderFooter) (slide : Slide) :
    Except GenError SlideOut :=
  match fuel with
  | 0 => .error .fuel
  | Nat.succ n => do
    let header := chooseHF slide.header modelHeader
    let footer := chooseHF slide.footer modelFooter
    let headerOut ← genHF n tbl header
    let footerOut ← genHF n tbl footer
    let content ← genBox n tbl slide.content
    .ok
      { id := slide.id
        annotable := !hasAttribute slide.attributes "non-annotable"
        headerOut := headerOut
        footerOut := footerOut
        headerStyles := header.map generateHeaderFooterStyles
        footerStyles := footer.map generateHeaderFooterStyles
        content := content }

def genSlideList (fuel : Nat) (tbl : List (String × Component))
    (modelHeader modelFooter : Option HeaderFooter) :
    List Slide → Except GenError (List SlideOut)
  | [] => .ok []
  | s :: rest => do
    let o ← genSlide fuel tbl modelHeader modelFooter s
    let os ← genSlideList fuel tbl modelHeader modelFooter rest
    .ok (o :: os)

/-- The data interpolated into the `generateModel` document template that
depends on the model: the title, the body font, and the slide sections. -/
structure DeckOut where
  title : String
  bodyFont : String
  slides : List SlideOut

/-- `generateModel(model)` minus the static boilerplate: rebuild the symbol
table from the model, then emit the document. -/
def generateDeck (fuel : Nat) (m : Model) : Except GenError DeckOut :=
  match fuel with
  | 0 => .error .fuel
  | Nat.succ n =>
    let tbl := buildSymbolTable m
    do
      let slides ← genSlideList n tbl m.header m.footer m.slides
      .ok
        { title := m.name
          bodyFont :=
            match m.theme with
            | some th =>
              match jsTruthyVal th.fontName with
              | some f => sliceEnds f
              | none => "Arial, sans-serif"
            | none => "Arial, sans-serif"
          slides := slides }

/-- One generator invocation including the module-level
`componentsSymbolTable` variable: the incoming value is whatever a previous
run left behind, and `generateModel` overwrites it from the model before
reading it.  Returns the output together with the state left for the next
run. -/
def generateModelRun (_prevTable : Option (List (String × Component)))
    (fuel : Nat) (m : Model) :
    Except GenError DeckOut × List (String × Component) :=
  (generateDeck fuel m, buildSymbolTable m)

/-! ## C1: attribute override on component instantiation -/

theorem map_attr_pairs (m : List (String × Option String)) :
    (m.map (fun p => ({ key := p.1, value := p.2 } : Attr))).map
        (fun a => (a.key, a.value)) = m := by
  induction m with
  | nil => rfl
  | cons p rest ih => simp [ih]

theorem mergeAttributes_lookup (declared callSite : List Attr) (k : String) :
    lookupA ((mergeAttributes declared callSite).map (fun a => (a.key, a.value))) k
      = orElseO (lastVal (callSite.map (fun a => (a.key, a.value))) k)
          (lastVal (declared.map (fun a => (a.key, a.value))) k) := by
  unfold mergeAttributes
  rw [map_attr_pairs]
  have hfold :
      callSite.foldl (fun acc a => jsMapSet acc a.key a.value)
          (jsMapOfList (declared.map fun a => (a.key, a.value)))
        = (callSite.map (fun a => (a.key, a.value))).foldl
            (fun acc p => jsMapSet acc p.1 p.2)
            (jsMapOfList (declared.map fun a => (a.key, a.value))) := by
    rw [List.foldl_map]
  rw [hfold, lookupA_foldl_jsMapSet, lookupA_jsMapOfList]

/-- The component used in the C1 counterexample: its root box is an
`ImageBox`, a kind absent from the merge `switch` of
`generateComponentBoxReference`. -/
def figureComponent : Component :=
  ⟨"Figure", .imageBox [⟨"scale", some "50%"⟩] "\x7bimg.png\x7d" "\x7ba figure\x7d"⟩

/-- C1, counterexample.  The claim quantifies over *every* component
instantiation, but the merge `switch` covers only `ComponentContentBox`,
`TextBox`, `ListBox` and `ComponentBoxReference` roots: instantiating an
image-rooted component whose declared root carries `scale=50%` with a
call-site `scale=30%` leaves the declared attributes untouched — the
effective map is `{scale:50%}`, not the claimed `D` overridden by `R`
(`{scale:30%}`), and the rendered widget shows it. -/
theorem C1_counterexample :
    (overrideDeclarationAttributes figureComponent.content
        [⟨"scale", some "30%"⟩]).attributes = [⟨"scale", some "50%"⟩]
  ∧ mergeAttributes [⟨"scale", some "50%"⟩] [⟨"scale", some "30%"⟩]
      = [⟨"scale", some "30%"⟩]
  ∧ genComponentBoxReference 5 [("Figure", figureComponent)] "Figure"
        [⟨"scale", some "30%"⟩] []
      = .ok (.image "img.png" "a figure" (some "50%")) :=
  ⟨by decide, by decide, by rfl⟩

/-- C1, amended.  When the resolved component's root box is a grid container,
text box, list box or nested reference — the kinds the merge `switch`
covers — the effective attribute array is the declared map overwritten
key-by-key by the call-site attributes: looking up any key yields the
call-site value when the key occurs there (its last occurrence), otherwise
the declared value, independent of iteration order; a call site overriding
`height` to `50%` over a declared `width=100%` yields exactly
`{width:100%, height:50%}`.  Roots of any other kind keep their declared
attributes unchanged. -/
theorem C1_attribute_merge :
    (∀ declared callSite : List Attr, ∀ k : String,
      lookupA ((mergeAttributes declared callSite).map (fun a => (a.key, a.value))) k
        = orElseO (lastVal (callSite.map (fun a => (a.key, a.value))) k)
            (lastVal (declared.map (fun a => (a.key, a.value))) k))
  ∧ (∀ attrs callSite boxes,
      overrideDeclarationAttributes (.componentContentBox attrs boxes) callSite
        = .componentContentBox (mergeAttributes attrs callSite) boxes)
  ∧ (∀ attrs callSite text,
      overrideDeclarationAttributes (.textBox attrs text) callSite
        = .textBox (mergeAttributes attrs callSite) text)
  ∧ (∀ attrs callSite items,
      overrideDeclarationAttributes (.listBox attrs items) callSite
        = .listBox (mergeAttributes attrs callSite) items)
  ∧ (∀ attrs callSite target fills,
      overrideDeclarationAttributes (.reference target attrs fills) callSite
        = .reference target (mergeAttributes attrs callSite) fills)
  ∧ mergeAttributes [⟨"width", some "100%"⟩] [⟨"height", some "50%"⟩]
      = [⟨"width", some "100%"⟩, ⟨"height", some "50%"⟩] :=
  ⟨mergeAttributes_lookup,
   fun _ _ _ => rfl, fun _ _ _ => rfl, fun _ _ _ => rfl, fun _ _ _ _ => rfl,
   by decide⟩

/-! ## C2: self-reference and cycle detection -/

theorem lookupA_mem {α : Type} (l : List (String × α)) (key : String) (v : α)
    (h : lookupA l key = some v) : (key, v) ∈ l := by
  induction l with
  | nil => simp [lookupA] at h
  | cons p rest ih =>
    obtain ⟨pk, pv⟩ := p
    by_cases hk : key = pk
    · simp only [lookupA, if_pos hk] at h
      obtain rfl : pv = v := Option.some.inj h
      subst hk
      exact List.mem_cons_self _ _
    · simp only [lookupA, if_neg hk] at h
      exact List.mem_cons_of_mem _ (ih h)

theorem mem_foldl_acc {α β : Type} (f : α → List β) (x : β) :
    ∀ (l : List α) (init : List β), x ∈ init →
      x ∈ l.foldl (fun acc a => acc ++ f a) init := by
  intro l
  induction l with
  | nil => intro init h; simpa using h
  | cons hd tl ih =>
    intro init h
    exact ih (init ++ f hd) (List.mem_append_left _ h)

theorem mem_foldl_of_mem {α β : Type} (f : α → List β) (x : β) (a : α) :
    ∀ (l : List α) (init : List β), a ∈ l → x ∈ f a →
      x ∈ l.foldl (fun acc b => acc ++ f b) init := by
  intro l
  induction l with
  | nil => intro init h; simp at h
  | cons hd tl ih =>
    intro init hmem hx
    rcases List.mem_cons.mp hmem with h | h
    · subst h
      exact mem_foldl_acc f x tl (init ++ f a) (List.mem_append_right _ hx)
    · exact ih (init ++ f hd) h hx

/-- C2, amended.  Every *direct* self-reference that the symbol-table builder
collects (references in nested content boxes and in slot default content, at
any depth) is reported as an error: if the information stored for a
component name contains a reference whose target is that very name, the
diagnostics of `checkComponentReferences` contain the
`cannot reference itself` error for it. -/
theorem C2_self_reference_reported (m : Model) (name : String)
    (info : CompInfo) (r : RefData)
    (htbl : lookupA (buildInfoTable m.components).1 name = some info)
    (hr : r ∈ info.references) (hself : r.target = name) :
    (⟨.error, .selfReference name⟩ : Diag) ∈ checkComponentReferences m := by
  have hmem : (name, info) ∈ (buildInfoTable m.components).1 :=
    lookupA_mem _ _ _ htbl
  have hinner :
      (⟨.error, .selfReference name⟩ : Diag) ∈
        info.references.foldl
          (fun ds' rd =>
            ds' ++
              (if (lookupA (buildInfoTable m.components).1 rd.target).isNone then
                [(⟨.error, .unknownComponent⟩ : Diag)]
              else if name = rd.target then
                [(⟨.error, .selfReference name⟩ : Diag)]
              else []))
          [] := by
    apply mem_foldl_of_mem _ _ r _ [] hr
    rw [hself, htbl]
    simp
  have hintra :
      (⟨.error, .selfReference name⟩ : Diag) ∈
        intraComponentDiags (buildInfoTable m.components).1 := by
    unfold intraComponentDiags
    exact mem_foldl_of_mem
      (fun entry =>
        entry.2.references.foldl
          (fun ds' rd =>
            ds' ++
              (if (lookupA (buildInfoTable m.components).1 rd.target).isNone then
                [(⟨.error, .unknownComponent⟩ : Diag)]
              else if entry.1 = rd.target then
                [(⟨.error, .selfReference entry.1⟩ : Diag)]
              else []))
          [])
      _ (name, info) _ [] hmem hinner
  unfold checkComponentReferences
  simp only [List.mem_append]
  exact Or.inl (Or.inr hintra)

/-- The two-component cycle of the C2 counterexample: `A`'s root box
references `B` and `B`'s root box references `A`. -/
def modelAB : Model :=
  { name := "cyclic"
    components :=
      [⟨"A", .reference "B" [] []⟩, ⟨"B", .reference "A" [] []⟩]
    slides := [{ id := "s1", content := .reference "A" [] [] }] }

/-- C2, counterexample.  The validator only compares each reference's target
with the *owning* component's name, so the transitive cycle `A → B → A` is
accepted with no diagnostic at all — the claim that transitive cycles are
reported as errors, and that rendering may therefore assume acyclicity,
fails: rendering this model exhausts any amount of fuel (the source would
recurse without bound). -/
theorem C2_counterexample :
    checkComponentReferences modelAB = []
  ∧ (collectComponentInformations (ComponentBox.reference "B" [] [])).references
      = [⟨"B", []⟩]
  ∧ (collectComponentInformations (ComponentBox.reference "A" [] [])).references
      = [⟨"A", []⟩]
  ∧ generateDeck 30 modelAB = .error .fuel :=
  ⟨by decide, by decide, by decide, by rfl⟩

/-- The directly self-referencing component used by the C2 witness. -/
def modelSelf : Model :=
  { name := "selfref"
    components :=
      [⟨"S", .componentContentBox [] [.reference "S" [] []]⟩]
    slides := [] }

theorem C2_witness :
    (⟨.error, .selfReference "S"⟩ : Diag) ∈ checkComponentReferences modelSelf :=
  C2_self_reference_reported modelSelf "S" ⟨[], [⟨"S", []⟩]⟩ ⟨"S", []⟩
    (by decide) (by decide) rfl

/-! ## C3: slot usage diagnostics -/

theorem slotStep_used_cases (c : String) (d : List String)
    (st : List String × List Diag) (hd x : String)
    (h : x ∈ (slotStep c d st hd).1) : x ∈ st.1 ∨ x = hd := by
  unfold slotStep at h
  split_ifs at h with h1 h2 <;> simp only [List.mem_append, List.mem_singleton] at h <;> tauto

theorem slotStep_used_mono (c : String) (d : List String)
    (st : List String × List Diag) (hd x : String)
    (h : x ∈ st.1) : x ∈ (slotStep c d st hd).1 := by
  unfold slotStep
  split_ifs <;> simp [h]

theorem slotStep_self_used (c : String) (d : List String)
    (st : List String × List Diag) (x : String) :
    x ∈ (slotStep c d st x).1 := by
  unfold slotStep
  split_ifs with h1 h2 <;> simp [h1]

theorem slotStep_diag_mono (c : String) (d : List String)
    (st : List String × List Diag) (hd : String) (x : Diag)
    (h : x ∈ st.2) : x ∈ (slotStep c d st hd).2 := by
  unfold slotStep
  split_ifs <;> simp [h]

theorem slotFold_diag_mono (c : String) (d : List String) :
    ∀ (filled : List String) (st : List String × List Diag) (x : Diag),
      x ∈ st.2 → x ∈ (filled.foldl (slotStep c d) st).2 := by
  intro filled
  induction filled with
  | nil => intro st x h; simpa using h
  | cons hd tl ih =>
    intro st x h
    simp only [List.foldl_cons]
    exact ih _ x (slotStep_diag_mono c d st hd x h)

theorem slotFold_used_mono (c : String) (d : List String) :
    ∀ (filled : List String) (st : List String × List Diag) (x : String),
      x ∈ st.1 → x ∈ (filled.foldl (slotStep c d) st).1 := by
  intro filled
  induction filled with
  | nil => intro st x h; simpa using h
  | cons hd tl ih =>
    intro st x h
    simp only [List.foldl_cons]
    exact ih _ x (slotStep_used_mono c d st hd x h)

theorem slotFold_used_src (c : String) (d : List String) :
    ∀ (filled : List String) (st : List String × List Diag) (x : String),
      x ∈ (filled.foldl (slotStep c d) st).1 → x ∈ st.1 ∨ x ∈ filled := by
  intro filled
  induction filled with
  | nil => intro st x h; simp only [List.foldl_nil] at h; exact Or.inl h
  | cons hd tl ih =>
    intro st x h
    simp only [List.foldl_cons] at h
    rcases ih _ x h with h' | h'
    · rcases slotStep_used_cases c d st hd x h' with h'' | h''
      · exact Or.inl h''
      · exact Or.inr (by simp [h''])
    · exact Or.inr (List.mem_cons_of_mem _ h')

theorem slotFold_unknown (c : String) (d : List String) :
    ∀ (filled : List String) (st : List String × List Diag) (s : String),
      s ∈ filled → s ∉ d → s ∉ st.1 →
      (⟨.error, .unknownSlot s c⟩ : Diag) ∈ (filled.foldl (slotStep c d) st).2 := by
  intro filled
  induction filled with
  | nil => intro st s hs _ _; simp at hs
  | cons hd tl ih =>
    intro st s hs hnd hnst
    simp only [List.foldl_cons]
    by_cases hsd : s = hd
    · subst hsd
      apply slotFold_diag_mono
      unfold slotStep
      rw [if_neg hnst, if_neg hnd]
      simp
    · have htl : s ∈ tl := by
        rcases List.mem_cons.mp hs with h | h
        · exact absurd h hsd
        · exact h
      apply ih _ s htl hnd
      intro hmem
      rcases slotStep_used_cases c d st hd s hmem with h | h
      · exact hnst h
      · exact hsd h

theorem slotFold_dup_of_used (c : String) (d : List String) :
    ∀ (filled : List String) (st : List String × List Diag) (s : String),
      s ∈ st.1 → s ∈ filled →
      (⟨.error, .slotUsedTwice s⟩ : Diag) ∈ (filled.foldl (slotStep c d) st).2 := by
  intro filled
  induction filled with
  | nil => intro st s _ hs; simp at hs
  | cons hd tl ih =>
    intro st s hused hs
    simp only [List.foldl_cons]
    by_cases hsd : s = hd
    · subst hsd
      apply slotFold_diag_mono
      unfold slotStep
      rw [if_pos hused]
      simp
    · have htl : s ∈ tl := by
        rcases List.mem_cons.mp hs with h | h
        · exact absurd h hsd
        · exact h
      exact ih _ s (slotStep_used_mono c d st hd s hused) htl

theorem slotFold_dup (c : String) (d : List String) :
    ∀ (filled : List String) (st : List String × List Diag) (s : String),
      2 ≤ filled.count s →
      (⟨.error, .slotUsedTwice s⟩ : Diag) ∈ (filled.foldl (slotStep c d) st).2 := by
  intro filled
  induction filled with
  | nil => intro st s h; simp at h
  | cons hd tl ih =>
    intro st s hcount
    simp only [List.foldl_cons]
    by_cases hsd : s = hd
    · subst hsd
      have h1 : 1 ≤ tl.count s := by
        simp only [List.count_cons, beq_self_eq_true, if_true] at hcount
        omega
      have htl : s ∈ tl := by
        rw [← List.count_pos_iff]
        omega
      exact slotFold_dup_of_used c d tl _ s (slotStep_self_used c d st s) htl
    · have hc : (hd :: tl).count s = tl.count s := by
        simp [List.count_cons, hsd]
      rw [hc] at hcount
      exact ih _ s hcount

theorem unused_fold_mono (c : String) (u : List String) :
    ∀ (l : List String) (init : List Diag) (x : Diag), x ∈ init →
      x ∈ l.foldl
        (fun ds slot =>
          if slot ∈ u then ds
          else ds ++ [⟨.warning, .slotNeverUsed slot c⟩]) init := by
  intro l
  induction l with
  | nil => intro init x h; simpa using h
  | cons hd tl ih =>
    intro init x h
    simp only [List.foldl_cons]
    apply ih
    split_ifs <;> simp [h]

theorem unused_fold_mem (c : String) (u : List String) :
    ∀ (l : List String) (init : List Diag) (s : String), s ∈ l → s ∉ u →
      (⟨.warning, .slotNeverUsed s c⟩ : Diag) ∈
        l.foldl
          (fun ds slot =>
            if slot ∈ u then ds
            else ds ++ [⟨.warning, .slotNeverUsed slot c⟩]) init := by
  intro l
  induction l with
  | nil => intro init s hs _; simp at hs
  | cons hd tl ih =>
    intro init s hs hnu
    simp only [List.foldl_cons]
    by_cases hsd : s = hd
    · subst hsd
      apply unused_fold_mono
      rw [if_neg hnu]
      simp
    · have htl : s ∈ tl := by
        rcases List.mem_cons.mp hs with h | h
        · exact absurd h hsd
        · exact h
      exact ih _ s htl hnu

/-- Scenario A: component `Card` declares slots `title` and `body`; one slide
instantiates it filling only `title`. -/
def modelCard : Model :=
  { name := "deck"
    components :=
      [⟨"Card", .componentContentBox []
        [.componentSlot "title" none, .componentSlot "body" none]⟩]
    slides :=
      [{ id := "s1"
         content := .reference "Card" [] [⟨"title", .textBox [] "\x7bHello\x7d"⟩] }] }

/-- C3.  For every reference checked against a component's declared slot set:
each filled name that is not declared yields an unknown-slot error, each name
filled at least twice yields a duplicate-use error, and each declared slot
never filled yields a warning — all collected, none aborting the walk.  On
Scenario A the whole-model validation returns exactly one warning (`body`
never used) and zero errors. -/
theorem C3_slot_diagnostics :
    (∀ (comp : String) (declared filled : List String) (s : String),
      s ∈ filled → s ∉ declared →
        (⟨.error, .unknownSlot s comp⟩ : Diag) ∈ checkSlotsUsage comp declared filled)
  ∧ (∀ (comp : String) (declared filled : List String) (s : String),
      2 ≤ filled.count s →
        (⟨.error, .slotUsedTwice s⟩ : Diag) ∈ checkSlotsUsage comp declared filled)
  ∧ (∀ (comp : String) (declared filled : List String) (s : String),
      s ∈ declared → s ∉ filled →
        (⟨.warning, .slotNeverUsed s comp⟩ : Diag) ∈ checkSlotsUsage comp declared filled)
  ∧ checkComponentReferences modelCard
      = [⟨.warning, .slotNeverUsed "body" "Card"⟩] := by
  refine ⟨?_, ?_, ?_, by decide⟩
  · intro comp declared filled s hs hnd
    unfold checkSlotsUsage
    apply List.mem_append_left
    exact slotFold_unknown comp declared filled ([], []) s hs hnd (by simp)
  · intro comp declared filled s hcount
    unfold checkSlotsUsage
    apply List.mem_append_left
    exact slotFold_dup comp declared filled ([], []) s hcount
  · intro comp declared filled s hd hnf
    unfold checkSlotsUsage
    apply List.mem_append_right
    apply unused_fold_mem comp _ declared [] s hd
    intro hmem
    rcases slotFold_used_src comp declared filled ([], []) s hmem with h | h
    · simp at h
    · exact hnf h

theorem C3_witness :
    ("extra" ∈ (["extra"] : List String) ∧ "extra" ∉ (["title"] : List String))
  ∧ (⟨.error, .unknownSlot "extra" "Card"⟩ : Diag) ∈
      checkSlotsUsage "Card" ["title"] ["extra"] :=
  ⟨⟨by decide, by decide⟩,
   C3_slot_diagnostics.1 "Card" ["title"] ["extra"] "extra" (by decide) (by decide)⟩

/-! ## C4: grid column and row computation -/

/-- C4.  The grid uses the parsed `column` attribute value as the column
count when the attribute is present (and truthy), 2 when absent, and the row
count is the ceiling of child count over column count; a box with 7 children
and `column=3` gets 3 columns and 3 rows. -/
theorem C4_grid_layout :
    (∀ (attrs : List Attr) (n : Nat) (s : String) (c : Int),
      getAttributeValue attrs "column" = some s → s ≠ "" →
      parseIntJS s = some c → 1 ≤ c →
        (generateContentBoxAttributes attrs n).columns = some c
        ∧ (generateContentBoxAttributes attrs n).rows = some ⌈(n : ℚ) / (c : ℚ)⌉)
  ∧ (∀ (attrs : List Attr) (n : Nat),
      getAttributeValue attrs "column" = none →
        (generateContentBoxAttributes attrs n).columns = some 2
        ∧ (generateContentBoxAttributes attrs n).rows = some ⌈(n : ℚ) / ((2 : Int) : ℚ)⌉)
  ∧ (generateContentBoxAttributes [⟨"column", some "3"⟩] 7).columns = some 3
  ∧ (generateContentBoxAttributes [⟨"column", some "3"⟩] 7).rows = some 3 := by
  have scenarioCol : contentColumnCount [⟨"column", some "3"⟩] = some 3 := by decide
  refine ⟨?_, ?_, ?_, ?_⟩
  · intro attrs n s c hcol hs hparse hc
    have hcc : contentColumnCount attrs = some c := by
      simp [contentColumnCount, hcol, hs, hparse]
    have hc0 : c ≠ 0 := by omega
    constructor
    · simp [generateContentBoxAttributes, hcc]
    · simp [generateContentBoxAttributes, hcc, gridRows, hc0]
  · intro attrs n hcol
    have hcc : contentColumnCount attrs = some 2 := by
      simp [contentColumnCount, hcol]
    constructor
    · simp [generateContentBoxAttributes, hcc]
    · simp [generateContentBoxAttributes, hcc, gridRows]
  · simp [generateContentBoxAttributes, scenarioCol]
  · simp only [generateContentBoxAttributes, scenarioCol, gridRows]
    norm_num
    rw [Int.ceil_eq_iff]
    norm_num

theorem C4_witness :
    (getAttributeValue [⟨"column", some "3"⟩] "column" = some "3"
      ∧ parseIntJS "3" = some 3)
  ∧ ((generateContentBoxAttributes [⟨"column", some "3"⟩] 7).columns = some 3
      ∧ (generateContentBoxAttributes [⟨"column", some "3"⟩] 7).rows
          = some ⌈((7 : Nat) : ℚ) / ((3 : Int) : ℚ)⌉) :=
  ⟨⟨by decide, by decide⟩,
   C4_grid_layout.1 [⟨"column", some "3"⟩] 7 "3" 3 (by decide) (by decide)
     (by decide) (by decide)⟩

/-! ## C5: alignment keyword mapping -/

/-- C5.  `mapAlignment` is a pure function sending each compass word to its
placement primitive (`top`/`left` to `start`, `center` to `center`,
`bottom`/`right` to `end`); an absent (or empty, hence falsy) value and a
single word default the remaining axis to `center`.  All compass inputs
enumerated. -/
theorem C5_alignment_mapping :
    mapAlignment none = "center center"
  ∧ mapAlignment (some "") = "center center"
  ∧ mapAlignment (some "top left") = "start start"
  ∧ mapAlignment (some "top center") = "start center"
  ∧ mapAlignment (some "top right") = "start end"
  ∧ mapAlignment (some "center left") = "center start"
  ∧ mapAlignment (some "center center") = "center center"
  ∧ mapAlignment (some "center right") = "center end"
  ∧ mapAlignment (some "bottom left") = "end start"
  ∧ mapAlignment (some "bottom center") = "end center"
  ∧ mapAlignment (some "bottom right") = "end end"
  ∧ mapAlignment (some "top") = "start center"
  ∧ mapAlignment (some "bottom") = "end center"
  ∧ mapAlignment (some "center") = "center center"
  ∧ mapAlignment (some "left") = "start center"
  ∧ mapAlignment (some "right") = "end center"
  ∧ alignWord "top" = some "start"
  ∧ alignWord "left" = some "start"
  ∧ alignWord "center" = some "center"
  ∧ alignWord "bottom" = some "end"
  ∧ alignWord "right" = some "end" := by
  decide

/-! ## C6: slot substitution during component expansion -/

/-- C6.  While rendering a component body, a `ComponentSlot` renders as the
call site's pre-rendered fill for its name when one was recorded, otherwise
as its own default content, and as the empty node only when it has neither;
`generateComponentBox` dispatches every slot it encounters to this
substitution with the call site's slot record. -/
theorem C6_slot_substitution :
    (∀ (n : Nat) (tbl : List (String × Component)) (name : String)
        (content : Option Box) (slots : List (String × Out)) (out : Out),
      lookupA slots name = some out →
        genComponentSlot (n + 1) tbl name content slots = .ok out)
  ∧ (∀ (n : Nat) (tbl : List (String × Component)) (name : String)
        (box : Box) (slots : List (String × Out)),
      lookupA slots name = none →
        genComponentSlot (n + 1) tbl name (some box) slots = genBox n tbl box)
  ∧ (∀ (n : Nat) (tbl : List (String × Component)) (name : String)
        (slots : List (String × Out)),
      lookupA slots name = none →
        genComponentSlot (n + 1) tbl name none slots = .ok .empty)
  ∧ (∀ (n : Nat) (tbl : List (String × Component))
        (slots : List (String × Out)) (name : String) (content : Option Box),
      genComponentBox (n + 1) tbl slots (.componentSlot name content)
        = genComponentSlot n tbl name content slots) := by
  refine ⟨?_, ?_, ?_, ?_⟩
  · intro n tbl name content slots out h
    simp [genComponentSlot, h]
  · intro n tbl name box slots h
    simp [genComponentSlot, h]
  · intro n tbl name slots h
    simp [genComponentSlot, h]
  · intro n tbl slots name content
    rfl

theorem C6_witness :
    lookupA [("title", Out.empty)] "title" = some Out.empty
  ∧ genComponentSlot 1 [] "title" none [("title", Out.empty)] = .ok Out.empty :=
  ⟨rfl, C6_slot_substitution.1 0 [] "title" none [("title", Out.empty)]
    Out.empty rfl⟩

/-! ## C7: live-quiz widget markup -/

/-- C7, counterexample.  The join script of a live quiz embeds the constant
session identifier `"SESSION123"` declared inside `generateLiveQuizBox`; the
quiz's own declared session id (here `{room42}`) is never read, so the
claimed "embeds that quiz's own session identifier" fails. -/
theorem C7_counterexample :
    (generateLiveQuizBox "q1" "\x7bWhich?\x7d" (some "\x7bA\x7d") "\x7broom42\x7d"
        [⟨"a", "\x7bA\x7d"⟩, ⟨"b", "\x7bB\x7d"⟩] false).scriptSessionId = "SESSION123"
  ∧ textContent "\x7broom42\x7d" = "room42"
  ∧ ("SESSION123" : String) ≠ "room42"
  ∧ ("SESSION123" : String) ≠ "\x7broom42\x7d" := by
  decide

/-- C7, amended.  The live-quiz widget is a container tagged with the quiz id
and correct answer, holds one counter per option keyed by the option's label
and initialised to `0`, a QR-code placeholder keyed by the quiz id, and a
join script carrying the quiz id, the option labels — and the fixed
placeholder session identifier `"SESSION123"`, not the quiz's own. -/
theorem C7_live_quiz_markup (id question : String) (ca : Option String)
    (sid : String) (options : List QuizOption) (reveal : Bool) :
    (generateLiveQuizBox id question ca sid options reveal).containerId
        = "quiz-" ++ id
  ∧ (generateLiveQuizBox id question ca sid options reveal).dataCorrectAnswer
        = (match ca with | some c => textContent c | none => "")
  ∧ (generateLiveQuizBox id question ca sid options reveal).voteCounters
        = options.map (fun o => (textContent o.content, "0"))
  ∧ (generateLiveQuizBox id question ca sid options reveal).qrPlaceholderId
        = "qr-" ++ id
  ∧ (generateLiveQuizBox id question ca sid options reveal).scriptQuizId = id
  ∧ (generateLiveQuizBox id question ca sid options reveal).scriptOptions
        = options.map (fun o => textContent o.content)
  ∧ (generateLiveQuizBox id question ca sid options reveal).scriptSessionId
        = "SESSION123"
  ∧ (∀ (n : Nat) (tbl : List (String × Component)) (attrs : List Attr),
      genBox (n + 1) tbl (.liveQuizBox attrs id question ca sid options reveal)
        = .ok (generateTerminalBoxWithFragment attrs
            (.liveQuiz (generateLiveQuizBox id question ca sid options reveal)))) := by
  refine ⟨rfl, rfl, ?_, rfl, rfl, rfl, rfl, fun n tbl attrs => rfl⟩
  simp [generateLiveQuizBox, List.map_map]

/-! ## C8: determinism across generation runs -/

/-- C8.  Generation is a function of the model alone: whatever symbol table a
previous run left in the module-level variable, the output is unchanged
(`generateModel` rebuilds the table from the model before reading it), the
state left behind is exactly the fresh table, and a second run seeded with
the first run's leftover state reproduces the first run's render tree
identically. -/
theorem C8_deterministic_generation
    (prev1 prev2 : Option (List (String × Component))) (fuel : Nat) (m : Model) :
    (generateModelRun prev1 fuel m).1 = (generateModelRun prev2 fuel m).1
  ∧ (generateModelRun prev1 fuel m).2 = buildSymbolTable m
  ∧ (generateModelRun (some (generateModelRun prev1 fuel m).2) fuel m).1
      = (generateModelRun prev1 fuel m).1 :=
  ⟨rfl, rfl, rfl⟩

/-! ## C9: the resolution precondition of component expansion -/

/-- `true` unless the generator outcome is the modelled `!`-dereference
failure of `generateComponentBoxReference`. -/
def noCrash {α : Type} : Except GenError α → Bool
  | .error (.unresolvedRef _) => false
  | _ => true

mutual

/-- Every reference target that rendering a slide-level box can dereference:
targets of the box itself, of boxes below content boxes, and of boxes inside
call-site slot fills. -/
def boxTargets : Box → List String
  | .reference target _ fills => target :: fillsTargets fills
  | .contentBox _ boxes => boxListTargets boxes
  | _ => []

def boxListTargets : List Box → List String
  | [] => []
  | b :: rest => boxTargets b ++ boxListTargets rest

def fillsTargets : List SlotFill → List String
  | [] => []
  | .mk _ content :: rest => boxTargets content ++ fillsTargets rest

end

/-- Targets of a slot's optional default content. -/
def slotContentTargets : Option Box → List String
  | some b => boxTargets b
  | none => []

mutual

/-- Every reference target that rendering a component-level box can
dereference. -/
def cboxTargets : ComponentBox → List String
  | .reference target _ fills => target :: fillsTargets fills
  | .componentContentBox _ boxes => cboxListTargets boxes
  | .componentSlot _ content => slotContentTargets content
  | _ => []

def cboxListTargets : List ComponentBox → List String
  | [] => []
  | b :: rest => cboxTargets b ++ cboxListTargets rest

end

def allResolve (tbl : List (String × Component)) (ts : List String) : Bool :=
  ts.all (fun t => (lookupA tbl t).isSome)

def hfTargets : Option HeaderFooter → List String
  | some hf => boxTargets hf.content
  | none => []

/-- The resolution precondition: every reference target reachable by
rendering — in any component body, any slide content tree (slot fills
included), and any header/footer content — names a component of the model. -/
def modelRefsResolvable (m : Model) : Bool :=
  let tbl := buildSymbolTable m
  m.components.all (fun c => allResolve tbl (cboxTargets c.content))
    && m.slides.all (fun s =>
        allResolve tbl (boxTargets s.content)
          && allResolve tbl (hfTargets s.header)
          && allResolve tbl (hfTargets s.footer))
    && allResolve tbl (hfTargets m.header)
    && allResolve tbl (hfTargets m.footer)

/-- Every component stored in the table has a fully resolvable body. -/
def TableOK (tbl : List (String × Component)) : Prop :=
  ∀ name c, lookupA tbl name = some c →
    ∀ t ∈ cboxTargets c.content, (lookupA tbl t).isSome = true

theorem noCrash_bind {α β : Type} (x : Except GenError α)
    (f : α → Except GenError β) (hx : noCrash x = true)
    (hf : ∀ a, noCrash (f a) = true) : noCrash (x >>= f) = true := by
  cases x with
  | error e =>
    cases e with
    | unresolvedRef t => simp [noCrash] at hx
    | fuel => rfl
  | ok a => exact hf a

theorem cboxTargets_override (c : ComponentBox) (callSite : List Attr) :
    cboxTargets (overrideDeclarationAttributes c callSite) = cboxTargets c := by
  cases c <;> rfl

theorem lastVal_mem {α : Type} :
    ∀ (l : List (String × α)) (key : String) (v : α),
      lastVal l key = some v → (key, v) ∈ l := by
  intro l
  induction l with
  | nil => intro key v h; simp [lastVal] at h
  | cons p rest ih =>
    intro key v h
    unfold lastVal at h
    cases hr : lastVal rest key with
    | some w =>
      rw [hr] at h
      have hv : w = v := by simpa [orElseO] using h
      exact List.mem_cons_of_mem _ (ih key v (hv ▸ hr))
    | none =>
      rw [hr] at h
      simp only [orElseO] at h
      by_cases hp : p.1 = key
      · rw [if_pos hp] at h
        obtain rfl : p.2 = v := by simpa using h
        obtain ⟨pk, pv⟩ := p
        obtain rfl : pk = key := hp
        exact List.mem_cons_self _ _
      · rw [if_neg hp] at h
        simp at h

theorem buildSymbolTable_lookup (m : Model) (name : String) (c : Component)
    (h : lookupA (buildSymbolTable m) name = some c) : c ∈ m.components := by
  have heq : buildSymbolTable m
      = jsMapOfList (m.components.map (fun comp => (comp.name, comp))) := by
    unfold buildSymbolTable jsMapOfList
    rw [List.foldl_map]
  rw [heq, lookupA_jsMapOfList] at h
  have hmem := lastVal_mem _ _ _ h
  rcases List.mem_map.mp hmem with ⟨comp, hcomp, heq2⟩
  obtain rfl : comp = c := congrArg Prod.snd heq2
  exact hcomp

/-- The combined no-crash invariant over all mutually recursive generator
functions, by induction on fuel: if every target a box can dereference is in
the table, and every table entry's body is fully resolvable, then no
generator call ends in the unresolved-reference failure. -/
theorem gen_no_unresolved (tbl : List (String × Component))
    (htbl : TableOK tbl) :
    ∀ fuel : Nat,
      (∀ b : Box, (∀ t ∈ boxTargets b, (lookupA tbl t).isSome = true) →
        noCrash (genBox fuel tbl b) = true)
    ∧ (∀ bs : List Box,
        (∀ t ∈ boxListTargets bs, (lookupA tbl t).isSome = true) →
        noCrash (genBoxList fuel tbl bs) = true)
    ∧ (∀ (target : String) (attrs : List Attr) (fills : List SlotFill),
        (lookupA tbl target).isSome = true →
        (∀ t ∈ fillsTargets fills, (lookupA tbl t).isSome = true) →
        noCrash (genComponentBoxReference fuel tbl target attrs fills) = true)
    ∧ (∀ (acc : List (String × Out)) (fills : List SlotFill),
        (∀ t ∈ fillsTargets fills, (lookupA tbl t).isSome = true) →
        noCrash (genSlotFills fuel tbl acc fills) = true)
    ∧ (∀ (slots : List (String × Out)) (cbox : ComponentBox),
        (∀ t ∈ cboxTargets cbox, (lookupA tbl t).isSome = true) →
        noCrash (genComponentBox fuel tbl slots cbox) = true)
    ∧ (∀ (slots : List (String × Out)) (bs : List ComponentBox),
        (∀ t ∈ cboxListTargets bs, (lookupA tbl t).isSome = true) →
        noCrash (genComponentBoxList fuel tbl slots bs) = true)
    ∧ (∀ (name : String) (content : Option Box) (slots : List (String × Out)),
        (∀ t ∈ slotContentTargets content, (lookupA tbl t).isSome = true) →
        noCrash (genComponentSlot fuel tbl name content slots) = true) := by
  intro fuel
  induction fuel with
  | zero =>
    exact ⟨fun _ _ => rfl, fun _ _ => rfl, fun _ _ _ _ _ => rfl,
      fun _ _ _ => rfl, fun _ _ _ => rfl, fun _ _ _ => rfl, fun _ _ _ _ => rfl⟩
  | succ n ih =>
    obtain ⟨ihB, ihBL, ihR, ihSF, ihCB, ihCBL, ihCS⟩ := ih
    refine ⟨?_, ?_, ?_, ?_, ?_, ?_, ?_⟩
    · intro b h
      cases b with
      | contentBox attrs boxes =>
        simp only [genBox]
        exact noCrash_bind _ _
          (ihBL boxes (fun t ht => h t (by simpa [boxTargets] using ht)))
          (fun _ => rfl)
      | reference target attrs slots =>
        simp only [genBox]
        refine noCrash_bind _ _ (ihR target attrs slots ?_ ?_) (fun _ => rfl)
        · exact h target (by simp [boxTargets])
        · intro t ht
          exact h t (by simp [boxTargets, ht])
      | textBox attrs content => rfl
      | imageBox attrs src alt => rfl
      | videoBox attrs src alt => rfl
      | quizBox attrs id qtype question ca options reveal => rfl
      | liveQuizBox attrs id question ca sessionId options reveal => rfl
      | listBox attrs items => rfl
    · intro bs h
      cases bs with
      | nil => rfl
      | cons b rest =>
        simp only [genBoxList]
        refine noCrash_bind _ _
          (ihB b (fun t ht => h t (by simp [boxListTargets, ht])))
          (fun o => ?_)
        refine noCrash_bind _ _
          (ihBL rest (fun t ht => h t (by simp [boxListTargets, ht])))
          (fun os => rfl)
    · intro target attrs fills htarget hfills
      obtain ⟨decl, hdecl⟩ := Option.isSome_iff_exists.mp htarget
      simp only [genComponentBoxReference, hdecl]
      refine noCrash_bind _ _ (ihSF [] fills hfills) (fun slots => ?_)
      apply ihCB
      rw [cboxTargets_override]
      exact htbl target decl hdecl
    · intro acc fills h
      cases fills with
      | nil => rfl
      | cons f rest =>
        obtain ⟨fname, fcontent⟩ := f
        simp only [genSlotFills]
        refine noCrash_bind _ _
          (ihB fcontent (fun t ht => h t (by simp [fillsTargets, ht])))
          (fun o => ?_)
        exact ihSF _ rest (fun t ht => h t (by simp [fillsTargets, ht]))
    · intro slots cbox h
      cases cbox with
      | componentSlot name content =>
        simp only [genComponentBox]
        exact ihCS name content slots (fun t ht => h t (by simpa [cboxTargets] using ht))
      | componentContentBox attrs boxes =>
        simp only [genComponentBox]
        exact noCrash_bind _ _
          (ihCBL slots boxes (fun t ht => h t (by simpa [cboxTargets] using ht)))
          (fun _ => rfl)
      | reference target attrs fills =>
        simp only [genComponentBox]
        refine ihR target attrs fills ?_ ?_
        · exact h target (by simp [cboxTargets])
        · intro t ht
          exact h t (by simp [cboxTargets, ht])
      | textBox attrs content => rfl
      | imageBox attrs src alt => rfl
      | videoBox attrs src alt => rfl
      | quizBox attrs id qtype question ca options reveal => rfl
      | liveQuizBox attrs id question ca sessionId options reveal => rfl
      | listBox attrs items => rfl
    · intro slots bs h
      cases bs with
      | nil => rfl
      | cons b rest =>
        simp only [genComponentBoxList]
        refine noCrash_bind _ _
          (ihCB slots b (fun t ht => h t (by simp [cboxListTargets, ht])))
          (fun o => ?_)
        exact noCrash_bind _ _
          (ihCBL slots rest (fun t ht => h t (by simp [cboxListTargets, ht])))
          (fun os => rfl)
    · intro name content slots h
      cases hlook : lookupA slots name with
      | some out => simp [genComponentSlot, hlook, noCrash]
      | none =>
        cases content with
        | some box =>
          simp only [genComponentSlot, hlook]
          exact ihB box (fun t ht => h t (by simpa [slotContentTargets] using ht))
        | none => simp [genComponentSlot, hlook, noCrash]

theorem genHF_noCrash (tbl : List (String × Component)) (htbl : TableOK tbl)
    (n : Nat) (hf : Option HeaderFooter)
    (h : ∀ t ∈ hfTargets hf, (lookupA tbl t).isSome = true) :
    noCrash (genHF n tbl hf) = true := by
  cases hf with
  | none => rfl
  | some f =>
    have hb := (gen_no_unresolved tbl htbl n).1 f.content
      (fun t ht => h t (by simpa [hfTargets] using ht))
    unfold genHF
    cases hx : genBox n tbl f.content with
    | error e => rw [hx] at hb; cases e <;> simp_all [noCrash, Except.map]
    | ok o => simp [hx, Except.map, noCrash]

theorem genSlide_noCrash (tbl : List (String × Component)) (htbl : TableOK tbl)
    (fuel : Nat) (mh mf : Option HeaderFooter) (s : Slide)
    (h1 : ∀ t ∈ boxTargets s.content, (lookupA tbl t).isSome = true)
    (h2 : ∀ t ∈ hfTargets s.header, (lookupA tbl t).isSome = true)
    (h3 : ∀ t ∈ hfTargets mh, (lookupA tbl t).isSome = true)
    (h4 : ∀ t ∈ hfTargets s.footer, (lookupA tbl t).isSome = true)
    (h5 : ∀ t ∈ hfTargets mf, (lookupA tbl t).isSome = true) :
    noCrash (genSlide fuel tbl mh mf s) = true := by
  cases fuel with
  | zero => rfl
  | succ n =>
    have hh : ∀ t ∈ hfTargets (chooseHF s.header mh), (lookupA tbl t).isSome = true := by
      cases hcase : s.header with
      | some f => intro t ht; exact h2 t (by rw [hcase]; simpa [chooseHF, hcase] using ht)
      | none => intro t ht; exact h3 t (by simpa [chooseHF, hcase] using ht)
    have hf' : ∀ t ∈ hfTargets (chooseHF s.footer mf), (lookupA tbl t).isSome = true := by
      cases hcase : s.footer with
      | some f => intro t ht; exact h4 t (by rw [hcase]; simpa [chooseHF, hcase] using ht)
      | none => intro t ht; exact h5 t (by simpa [chooseHF, hcase] using ht)
    simp only [genSlide]
    refine noCrash_bind _ _ (genHF_noCrash tbl htbl n _ hh) (fun ho => ?_)
    refine noCrash_bind _ _ (genHF_noCrash tbl htbl n _ hf') (fun fo => ?_)
    refine noCrash_bind _ _ ((gen_no_unresolved tbl htbl n).1 s.content h1)
      (fun c => rfl)

theorem genSlideList_noCrash (tbl : List (String × Component))
    (htbl : TableOK tbl) (fuel : Nat) (mh mf : Option HeaderFooter)
    (h3 : ∀ t ∈ hfTargets mh, (lookupA tbl t).isSome = true)
    (h5 : ∀ t ∈ hfTargets mf, (lookupA tbl t).isSome = true) :
    ∀ slides : List Slide,
      (∀ s ∈ slides,
        (∀ t ∈ boxTargets s.content, (lookupA tbl t).isSome = true)
        ∧ (∀ t ∈ hfTargets s.header, (lookupA tbl t).isSome = true)
        ∧ (∀ t ∈ hfTargets s.footer, (lookupA tbl t).isSome = true)) →
      noCrash (genSlideList fuel tbl mh mf slides) = true := by
  intro slides
  induction slides with
  | nil => intro _; rfl
  | cons s rest ih =>
    intro h
    obtain ⟨hs1, hs2, hs3⟩ := h s (List.mem_cons_self _ _)
    simp only [genSlideList]
    refine noCrash_bind _ _
      (genSlide_noCrash tbl htbl fuel mh mf s hs1 hs2 h3 hs3 h5) (fun o => ?_)
    refine noCrash_bind _ _
      (ih (fun s' hs' => h s' (List.mem_cons_of_mem _ hs'))) (fun os => rfl)

theorem generateDeck_noCrash (m : Model)
    (h : modelRefsResolvable m = true) (fuel : Nat) :
    noCrash (generateDeck fuel m) = true := by
  unfold modelRefsResolvable at h
  simp only [Bool.and_eq_true, List.all_eq_true] at h
  obtain ⟨⟨⟨hcomp, hslides⟩, hmh⟩, hmf⟩ := h
  have htbl : TableOK (buildSymbolTable m) := by
    intro name c hlook t ht
    have hc := hcomp c (buildSymbolTable_lookup m name c hlook)
    simp only [allResolve, List.all_eq_true] at hc
    exact hc t ht
  have hmh' : ∀ t ∈ hfTargets m.header,
      (lookupA (buildSymbolTable m) t).isSome = true := by
    simp only [allResolve, List.all_eq_true] at hmh
    exact hmh
  have hmf' : ∀ t ∈ hfTargets m.footer,
      (lookupA (buildSymbolTable m) t).isSome = true := by
    simp only [allResolve, List.all_eq_true] at hmf
    exact hmf
  cases fuel with
  | zero => rfl
  | succ n =>
    simp only [generateDeck]
    refine noCrash_bind _ _
      (genSlideList_noCrash (buildSymbolTable m) htbl n m.header m.footer
        hmh' hmf' m.slides ?_) (fun outs => rfl)
    intro s hs
    have := hslides s hs
    simp only [Bool.and_eq_true, allResolve, List.all_eq_true] at this
    exact ⟨this.1.1, this.1.2, this.2⟩

/-- C9, amended.  Under the resolution precondition — every reference target
reachable by rendering (slides, slot fills, component bodies, headers and
footers) names a declared component — the `!`-dereferences of
`generateComponentBoxReference` never fail, at any fuel; and whenever a
reference whose target is absent from the symbol table *is* dereferenced,
the generator stops with the unresolved-reference failure rather than a
diagnostic. -/
theorem C9_resolution_precondition :
    (∀ (m : Model) (fuel : Nat), modelRefsResolvable m = true →
      noCrash (generateDeck fuel m) = true)
  ∧ (∀ (n : Nat) (tbl : List (String × Component)) (target : String)
      (attrs : List Attr) (fills : List SlotFill),
      lookupA tbl target = none →
        genComponentBoxReference (n + 1) tbl target attrs fills
          = .error (.unresolvedRef target)) := by
  constructor
  · intro m fuel h
    exact generateDeck_noCrash m h fuel
  · intro n tbl target attrs fills h
    simp [genComponentBoxReference, h]

/-- The C9 counterexample model: the slide instantiates `Wrap` and fills its
slot `s` with a reference to the undeclared component `Zed`.  References
inside call-site slot fills are invisible to
`collectComponentBoxReferences`, so validation reports nothing. -/
def modelSlotFill : Model :=
  { name := "d"
    components := [⟨"Wrap", .componentSlot "s" none⟩]
    slides :=
      [{ id := "s1"
         content := .reference "Wrap" [] [⟨"s", .reference "Zed" [] []⟩] }] }

/-- C9, counterexample.  The claim identifies the crashing models with
"exactly the models for which validation emits an 'Unknown component'
error", but this model draws no diagnostic at all from
`checkComponentReferences` while rendering it dereferences the unresolved
`Zed` and fails. -/
theorem C9_counterexample :
    checkComponentReferences modelSlotFill = []
  ∧ generateDeck 10 modelSlotFill = .error (.unresolvedRef "Zed") :=
  ⟨by decide, by rfl⟩

/-- A fully resolvable model for the C9 witness. -/
def modelPlain : Model :=
  { name := "plain"
    components := []
    slides := [{ id := "s1", content := .textBox [] "\x7bhi\x7d" }] }

theorem C9_witness :
    modelRefsResolvable modelPlain = true
  ∧ noCrash (generateDeck 3 modelPlain) = true :=
  ⟨by decide, C9_resolution_precondition.1 modelPlain 3 (by decide)⟩

/-! ## C10: the 12-column upper bound -/

/-- C10, counterexample.  The claim says non-integer values are rejected, but
`parseInt` truncates: the non-integer value `3.5` parses to `3`, which is in
range, so the validator emits no diagnostic for it. -/
theorem C10_counterexample :
    parseIntJS "3.5" = some 3
  ∧ checkContentBoxAttributeValues [⟨"column", some "3.5"⟩] = [] := by
  decide

/-- C10, amended.  For every `ContentBox` attribute list, a `column` value
whose `parseInt` exceeds 12 draws the grid-maximum error, one whose
`parseInt` is `NaN` or below 1 draws the invalid-column error — but a
fractional string is truncated by `parseInt` and accepted whenever its
integer part lands in range. -/
theorem C10_column_bounds (attrs : List Attr) (v : Option String) (c : Int)
    (hmem : (⟨"column", v⟩ : Attr) ∈ attrs) :
    (parseIntOpt v = some c → 12 < c →
      (⟨.error, .columnExceedsTwelve v⟩ : Diag) ∈
        checkContentBoxAttributeValues attrs)
  ∧ (parseIntOpt v = none →
      (⟨.error, .columnInvalid v⟩ : Diag) ∈
        checkContentBoxAttributeValues attrs)
  ∧ (parseIntOpt v = some c → c < 1 →
      (⟨.error, .columnInvalid v⟩ : Diag) ∈
        checkContentBoxAttributeValues attrs) := by
  refine ⟨?_, ?_, ?_⟩
  · intro hparse h12
    unfold checkContentBoxAttributeValues
    refine mem_foldl_of_mem _ _ _ attrs [] hmem ?_
    have h1 : ¬ c < 1 := by omega
    simp [hparse, h1, h12]
  · intro hparse
    unfold checkContentBoxAttributeValues
    refine mem_foldl_of_mem _ _ _ attrs [] hmem ?_
    simp [hparse]
  · intro hparse h1
    unfold checkContentBoxAttributeValues
    refine mem_foldl_of_mem _ _ _ attrs [] hmem ?_
    simp [hparse, h1]

theorem C10_witness :
    parseIntOpt (some "15") = some 15
  ∧ (⟨.error, .columnExceedsTwelve (some "15")⟩ : Diag) ∈
      checkContentBoxAttributeValues [⟨"column", some "15"⟩] :=
  ⟨by decide,
   (C10_column_bounds [⟨"column", some "15"⟩] (some "15") 15 (by decide)).1
     (by decide) (by decide)⟩

end SlideDeckML
